import Mathlib

/-!
Verification of the authentication core of the simple-hospital repository.

The Go source is shallowly embedded:
* the `Users` table (`models.User` rows) becomes a list of `UserRec` values;
  SQL `SELECT ... WHERE` becomes `List.find?` and `UPDATE ... WHERE` becomes
  a `List.map` that rewrites every matching row;
* wall-clock time (`time.Now()`) is an explicit `Int` parameter counting Unix
  seconds; `time.Time.After` becomes `<` on these integers;
* the HMAC-based TOTP code of the `pquerna/otp` library is an abstract
  function `tc : String → Int → String` from (secret, 30-second step index)
  to the displayed code; `totp.GenerateCode(secret, t)` is
  `tc secret (totpStep t)` and `totp.Validate(code, secret)` checks the
  step of `now` with the library's default skew of ±1 step;
* `crypto/rand` output is an injected list of bytes (session tokens) or an
  injected family of strings (backup codes);
* the two in-memory session maps (`middleware.TwoFASessionManager` and
  `handlers.SessionManager`) become association lists from token to session,
  where inserting conses a fresh binding and Go's `delete` removes every
  binding of the key.
-/

namespace HospitalAuth

/-! ### TOTP code validation (services/auth/two_fa_service.go) -/

/-- Index of the 30-second time step containing Unix time `t`
(`pquerna/otp` computes `floor(unixTime / period)`). -/
def totpStep (t : Int) : Int := Int.fdiv t 30

/-- Model of `totp.GenerateCode(secret, t)`: the code of the step containing `t`. -/
def generateCode (tc : String → Int → String) (secret : String) (t : Int) : String :=
  tc secret (totpStep t)

/-- Model of `totp.Validate(code, secret)` at reference time `now`: the
`pquerna/otp` default options use a skew of one step, so the steps at
offsets -1, 0, +1 from the step of `now` are checked. -/
def totpValidateDefault (tc : String → Int → String) (code secret : String) (now : Int) : Bool :=
  [(-1 : Int), 0, 1].any fun i => code == tc secret (totpStep now + i)

/-- Model of the explicit skew loop `for i := -2; i <= 2; i++` in
`VerifyTwoFA`/`EnableTwoFA`: regenerates the code at `now + i*30` seconds
and compares it with the submission. -/
def totpSkewLoop (tc : String → Int → String) (code secret : String) (now : Int) : Bool :=
  [(-2 : Int), -1, 0, 1, 2].any fun i => generateCode tc secret (now + i * 30) == code

/-- The complete TOTP acceptance test of `VerifyTwoFA`: the default
validation first, then the explicit loop. -/
def totpAccepts (tc : String → Int → String) (code secret : String) (now : Int) : Bool :=
  totpValidateDefault tc code secret now || totpSkewLoop tc code secret now

/-! ### The Users table -/

/-- One row of the `Users` table (`models.User`). -/
structure UserRec where
  userId : Nat
  username : String
  passwordHash : String
  role : String
  fullName : String
  twoFASecret : String
  twoFAEnabled : Bool
  backupCodes : List String
  deriving DecidableEq, Repr

abbrev UsersDB := List UserRec

/-- `SELECT ... FROM Users WHERE username = ?` (first matching row). -/
def findByUsername (db : UsersDB) (uname : String) : Option UserRec :=
  db.find? fun u => u.username == uname

/-- `SELECT ... FROM Users WHERE user_id = ? AND two_fa_enabled = TRUE`. -/
def findEnabledById (db : UsersDB) (uid : Nat) : Option UserRec :=
  db.find? fun u => u.userId == uid && u.twoFAEnabled

/-- `UPDATE Users SET two_fa_backup_codes = ? WHERE user_id = ?`. -/
def setBackupCodes (db : UsersDB) (uid : Nat) (codes : List String) : UsersDB :=
  db.map fun u => if u.userId == uid then { u with backupCodes := codes } else u

/-- `UPDATE Users SET two_fa_secret = ?, two_fa_enabled = TRUE,
two_fa_backup_codes = ? WHERE user_id = ?` (the enable step). -/
def setTwoFAEnabled (db : UsersDB) (uid : Nat) (secret : String) (codes : List String) : UsersDB :=
  db.map fun u =>
    if u.userId == uid then
      { u with twoFASecret := secret, twoFAEnabled := true, backupCodes := codes }
    else u

/-- `UPDATE Users SET two_fa_secret = ? WHERE username = ?` (the setup step). -/
def setSecretByUsername (db : UsersDB) (uname : String) (secret : String) : UsersDB :=
  db.map fun u => if u.username == uname then { u with twoFASecret := secret } else u

/-! ### TwoFAService (services/auth/two_fa_service.go) -/

/-- The backup-code scan of `VerifyTwoFA`: Go iterates over the list and on
the first element equal to `code` removes exactly that element
(`append(backupCodes[:i], backupCodes[i+1:]...)`). Returns `none` when no
element matches. -/
def removeFirst (code : String) : List String → Option (List String)
  | [] => none
  | c :: rest => if code == c then some rest else (removeFirst code rest).map (c :: ·)

/-- `TwoFAService.VerifyTwoFA(userID, code)`. Returns the `(bool, error)`
outcome (as `Except`) together with the Users table after the call, since
a consumed backup code is written back with
`UPDATE Users SET two_fa_backup_codes = ...`. -/
def verifyTwoFA (tc : String → Int → String) (now : Int) (db : UsersDB)
    (userId : Nat) (code : String) : Except String Bool × UsersDB :=
  match findEnabledById db userId with
  | none => (Except.error "2FA not enabled for user", db)
  | some u =>
    if totpValidateDefault tc code u.twoFASecret now then (Except.ok true, db)
    else if totpSkewLoop tc code u.twoFASecret now then (Except.ok true, db)
    else
      match removeFirst code u.backupCodes with
      | some rest => (Except.ok true, setBackupCodes db userId rest)
      | none => (Except.ok false, db)

/-- `generateBackupCodes`: 10 backup codes, each drawn from the injected
random source (`generateBackupCode` = upper-cased hex of 6 random bytes). -/
def generateBackupCodes (randCode : Fin 10 → String) : List String :=
  (List.finRange 10).map randCode

/-- `TwoFAService.EnableTwoFA(userID, secret, code)`: validates the code
(default validation, then the ±2-step skew loop), then persists
secret + enabled flag + 10 fresh backup codes and returns the codes. -/
def enableTwoFA (tc : String → Int → String) (now : Int) (randCode : Fin 10 → String)
    (db : UsersDB) (userId : Nat) (secret code : String) :
    Except String (List String) × UsersDB :=
  if totpValidateDefault tc code secret now || totpSkewLoop tc code secret now then
    let codes := generateBackupCodes randCode
    (Except.ok codes, setTwoFAEnabled db userId secret codes)
  else (Except.error "invalid 2FA code", db)

/-- `models.TwoFASetup`. -/
structure TwoFASetup where
  secretKey : String
  qrCodeUrl : String
  backupCodes : List String
  deriving DecidableEq, Repr

/-- `TwoFAService.GenerateTwoFASetup(username)`: reuses the stored secret
when the user exists and has a non-empty one; otherwise generates a fresh
secret (`newSecret`, the injected randomness) and stores it with
`UPDATE Users SET two_fa_secret = ? WHERE username = ?`. The QR rendering
(`generateQRCodeFromSecret`) is abstracted by `qr secret username`. -/
def generateTwoFASetup (qr : String → String → String) (newSecret : String)
    (db : UsersDB) (username : String) : Except String TwoFASetup × UsersDB :=
  match findByUsername db username with
  | none =>
    (Except.ok ⟨newSecret, "data:image/png;base64," ++ qr newSecret username, []⟩,
     setSecretByUsername db username newSecret)
  | some u =>
    if u.twoFASecret == "" then
      (Except.ok ⟨newSecret, "data:image/png;base64," ++ qr newSecret username, []⟩,
       setSecretByUsername db username newSecret)
    else
      (Except.ok ⟨u.twoFASecret, "data:image/png;base64," ++ qr u.twoFASecret username, []⟩, db)

/-! ### Hex encoding of random tokens (`encoding/hex.EncodeToString`) -/

/-- Lower-case hex digit of a nibble (`0`..`9`, `a`..`f`). -/
def hexDigit (n : Nat) : Char :=
  if n < 10 then Char.ofNat (48 + n) else Char.ofNat (87 + n)

/-- Hex characters of a byte list, two digits per byte. -/
def hexBytes : List Nat → List Char
  | [] => []
  | b :: bs => hexDigit (b / 16) :: hexDigit (b % 16) :: hexBytes bs

/-- `hex.EncodeToString(bytes)`. -/
def hexEncode (bytes : List Nat) : String :=
  String.mk (hexBytes bytes)

/-! ### TwoFASessionManager (middleware, the 2FA pending-session store) -/

/-- `middleware.TwoFASession`. -/
structure TwoFASession where
  sessionId : String
  userId : Nat
  username : String
  createdAt : Int
  expiresAt : Int
  authenticated : Bool
  deriving DecidableEq, Repr

/-- The session map, as an association list from token to session; a lookup
returns the first binding of the key, so a freshly consed binding shadows
older ones just as a Go map assignment overwrites. -/
abbrev SessionStore := List (String × TwoFASession)

namespace TwoFASessionManager

/-- Map lookup `sm.sessions[sessionID]`. -/
def lookupSession (st : SessionStore) (sid : String) : Option TwoFASession :=
  (st.find? fun p => p.1 == sid).map (·.2)

/-- `TwoFASessionManager.CreateSession(userID, username)`: hex-encodes the
32 random bytes (`randBytes`, the injected `crypto/rand` output) into the
token, builds a pending session expiring in 15 minutes and inserts it. -/
def createSession (now : Int) (randBytes : List Nat) (st : SessionStore)
    (uid : Nat) (uname : String) : TwoFASession × SessionStore :=
  let sid := hexEncode randBytes
  let s : TwoFASession := ⟨sid, uid, uname, now, now + 15 * 60, false⟩
  (s, (sid, s) :: st)

/-- `TwoFASessionManager.GetSession(sessionID)`: lookup under the read lock;
an expired entry is reported as absent but deliberately not deleted
("let cleanup handle it"). The store component of the result is the store
after the call. -/
def getSession (now : Int) (st : SessionStore) (sid : String) :
    Option TwoFASession × SessionStore :=
  match lookupSession st sid with
  | none => (none, st)
  | some s => if s.expiresAt < now then (none, st) else (some s, st)

/-- `TwoFASessionManager.MarkAuthenticated(sessionID)`: fails on an absent or
expired token; otherwise sets `Authenticated = true` and extends the expiry
to 24 hours from now (mutation of the stored session, modelled by rewriting
the binding of the key). -/
def markAuthenticated (now : Int) (st : SessionStore) (sid : String) :
    Bool × SessionStore :=
  match lookupSession st sid with
  | none => (false, st)
  | some s =>
    if s.expiresAt < now then (false, st)
    else
      (true, st.map fun p =>
        if p.1 == sid then
          (p.1, { p.2 with authenticated := true, expiresAt := now + 24 * 60 * 60 })
        else p)

/-- `TwoFASessionManager.DeleteSession(sessionID)` (`delete` on the map). -/
def deleteSession (st : SessionStore) (sid : String) : SessionStore :=
  st.filter fun p => !(p.1 == sid)

/-- One round of the `cleanup` goroutine: delete every expired entry. -/
def sweepExpired (now : Int) (st : SessionStore) : SessionStore :=
  st.filter fun p => !(p.2.expiresAt < now)

/-- The `ClearAllSessionsEndpoint` mutation: replace the map by a fresh one. -/
def clearAllSessions (_st : SessionStore) : SessionStore := []

/-- `TwoFASessionManager.GetSessionCount()`. -/
def getSessionCount (st : SessionStore) : Nat := st.length

/-- One invocation of an exposed mutator of the `TwoFASessionManager`. -/
inductive StoreOp where
  | create (now : Int) (randBytes : List Nat) (uid : Nat) (uname : String)
  | get (now : Int) (sid : String)
  | mark (now : Int) (sid : String)
  | del (sid : String)
  | sweep (now : Int)
  | clearAll

/-- The store left behind by one operation. -/
def applyOp : StoreOp → SessionStore → SessionStore
  | .create now rb uid un, st => (createSession now rb st uid un).2
  | .get now sid, st => (getSession now st sid).2
  | .mark now sid, st => (markAuthenticated now st sid).2
  | .del sid, st => deleteSession st sid
  | .sweep now, st => sweepExpired now st
  | .clearAll, st => clearAllSessions st

/-- Freshness of the randomness feeding an operation: a created token does
not collide with a live one (Go relies on the 256-bit CSPRNG draw for this). -/
def opFresh : StoreOp → SessionStore → Prop
  | .create _ rb _ _, st => lookupSession st (hexEncode rb) = none
  | _, _ => True

/-- Key uniqueness of the association list, the invariant of a Go map. -/
def keysNodup (st : SessionStore) : Prop := (st.map Prod.fst).Nodup

end TwoFASessionManager

/-! ### SessionManager (handlers/session_auth_handler.go) -/

/-- `handlers.Session`. -/
structure HSession where
  sessionId : String
  userId : Nat
  username : String
  role : String
  fullName : String
  twoFAEnabled : Bool
  twoFAVerified : Bool
  createdAt : Int
  lastAccessedAt : Int
  expiresAt : Int
  deriving DecidableEq, Repr

abbrev HStore := List (String × HSession)

namespace SessionManager

/-- Map lookup `sm.sessions[sessionID]`. -/
def lookupSession (st : HStore) (sid : String) : Option HSession :=
  (st.find? fun p => p.1 == sid).map (·.2)

/-- `SessionManager.CreateSession(user, twoFAVerified)`: 24-hour expiry and
the `TwoFAVerified` flag taken from the caller. -/
def createSession (now : Int) (randBytes : List Nat) (st : HStore)
    (user : UserRec) (twoFAVerified : Bool) : HSession × HStore :=
  let sid := hexEncode randBytes
  let s : HSession :=
    ⟨sid, user.userId, user.username, user.role, user.fullName,
     user.twoFAEnabled, twoFAVerified, now, now, now + 24 * 60 * 60⟩
  (s, (sid, s) :: st)

/-- `SessionManager.GetSession(sessionID)`: deletes an expired entry during
the read, and refreshes `LastAccessedAt` of a live one. -/
def getSession (now : Int) (st : HStore) (sid : String) :
    Option HSession × HStore :=
  match lookupSession st sid with
  | none => (none, st)
  | some s =>
    if s.expiresAt < now then (none, st.filter fun p => !(p.1 == sid))
    else
      let s' := { s with lastAccessedAt := now }
      (some s', st.map fun p => if p.1 == sid then (p.1, s') else p)

/-- `SessionManager.UpdateSession2FA(sessionID, verified)`: writes the
caller-supplied flag into the session (no expiry check). -/
def updateSession2FA (st : HStore) (sid : String) (verified : Bool) :
    Bool × HStore :=
  match lookupSession st sid with
  | none => (false, st)
  | some s =>
    (true, st.map fun p =>
      if p.1 == sid then (p.1, { s with twoFAVerified := verified }) else p)

end SessionManager

/-! ### Credential verification and the Login handler -/

/-- The two distinct error values `authenticateUser` can propagate:
`sql.ErrNoRows` surfaced by `GetUserByUsername` for an unknown username,
and `bcrypt.ErrMismatchedHashAndPassword` for a wrong password. -/
inductive AuthErr where
  | noRows
  | bcryptMismatch
  deriving DecidableEq, Repr

/-- `SessionAuthHandler.authenticateUser(username, password)`: looks the user
up by name (propagating the not-found error), then compares the password
against the stored hash with bcrypt (`bcryptOk hash password` models
`bcrypt.CompareHashAndPassword` succeeding) and propagates the mismatch
error; on success clears the hash. -/
def authenticateUser (bcryptOk : String → String → Bool) (db : UsersDB)
    (username password : String) : Except AuthErr UserRec :=
  match findByUsername db username with
  | none => Except.error AuthErr.noRows
  | some u =>
    if bcryptOk u.passwordHash password then Except.ok { u with passwordHash := "" }
    else Except.error AuthErr.bcryptMismatch

/-- `handlers.LoginResponse` (the fields the login flow fills). -/
structure LoginResponse where
  success : Bool
  message : String
  sessionId : Option String
  requires2FA : Bool
  tempSessionId : Option String
  deriving DecidableEq, Repr

/-- `UPDATE` of a stored session's expiry (`tempSession.ExpiresAt = ...`). -/
def hSetExpiry (st : HStore) (sid : String) (t : Int) : HStore :=
  st.map fun p => if p.1 == sid then (p.1, { p.2 with expiresAt := t }) else p

/-- `SessionAuthHandler.Login`: any authentication failure is answered with
the one fixed message; a 2FA user gets a temp session (created with
`twoFAVerified = false`, then its expiry overridden to 5 minutes); a
non-2FA user gets a full session created with `twoFAVerified = true`. -/
def login (bcryptOk : String → String → Bool) (now : Int) (randBytes : List Nat)
    (db : UsersDB) (st : HStore) (username password : String) :
    LoginResponse × HStore :=
  match authenticateUser bcryptOk db username password with
  | Except.error _ =>
    (⟨false, "Invalid username or password", none, false, none⟩, st)
  | Except.ok user =>
    if user.twoFAEnabled then
      let r := SessionManager.createSession now randBytes st user false
      let st' := hSetExpiry r.2 r.1.sessionId (now + 5 * 60)
      (⟨false, "2FA verification required", none, true, some r.1.sessionId⟩, st')
    else
      let r := SessionManager.createSession now randBytes st user true
      (⟨true, "Login successful", some r.1.sessionId, false, none⟩, r.2)

/-! ### The phase decomposition of VerifyTwoFA, for the concurrency analysis -/

/-- The read phase of `VerifyTwoFA`: the single `SELECT` of secret and
backup codes. -/
def verifyTwoFARead (db : UsersDB) (uid : Nat) : Option (String × List String) :=
  (findEnabledById db uid).map fun u => (u.twoFASecret, u.backupCodes)

/-- The lock-free compute phase: the TOTP checks and the backup-code scan,
returning the boolean outcome and the shortened list to write back, if any. -/
def verifyTwoFACompute (tc : String → Int → String) (now : Int) (code : String)
    (secret : String) (codes : List String) : Bool × Option (List String) :=
  if totpValidateDefault tc code secret now then (true, none)
  else if totpSkewLoop tc code secret now then (true, none)
  else
    match removeFirst code codes with
    | some rest => (true, some rest)
    | none => (false, none)

/-- The write phase: the `UPDATE` of the backup-code column, when one is due. -/
def applyWrite (db : UsersDB) (uid : Nat) : Option (List String) → UsersDB
  | none => db
  | some rest => setBackupCodes db uid rest

/-- Two concurrent `VerifyTwoFA` calls under the interleaving
read₁ read₂ write₁ write₂: nothing in the Go service serializes the
read-modify-write of the backup-code list, so both reads can see the initial
table before either `UPDATE` lands. Returns both boolean results and the
final table. -/
def verifyTwoFAInterleaved (tc : String → Int → String) (now₁ now₂ : Int)
    (db : UsersDB) (uid : Nat) (code₁ code₂ : String) :
    Bool × Bool × UsersDB :=
  match verifyTwoFARead db uid, verifyTwoFARead db uid with
  | some (sec₁, codes₁), some (sec₂, codes₂) =>
    let r₁ := verifyTwoFACompute tc now₁ code₁ sec₁ codes₁
    let r₂ := verifyTwoFACompute tc now₂ code₂ sec₂ codes₂
    (r₁.1, r₂.1, applyWrite (applyWrite db uid r₁.2) uid r₂.2)
  | _, _ => (false, false, db)

/-! ### Concrete instances used to evaluate the model -/

/-- A TOTP oracle whose codes are all `"000000"`; submissions of other
strings never match a TOTP code. -/
def noTotp : String → Int → String := fun _ _ => "000000"

/-- A user whose stored backup-code list contains a duplicated code. -/
def cexDupUser : UserRec :=
  ⟨1, "alice", "h", "Admin", "Alice", "SEC", true, ["AA", "AA"]⟩

def cexDupDB : UsersDB := [cexDupUser]

/-- A user with two distinct unused backup codes. -/
def witUser1 : UserRec :=
  ⟨1, "wendy", "h", "Doctor", "Wendy", "SEC", true, ["AA", "BB"]⟩

def witDB1 : UsersDB := [witUser1]

/-- A TOTP oracle for the window witness: the code of step 0 is `"111111"`,
every other step shows `"222222"`. -/
def tcW2 : String → Int → String := fun _ s => if s = 0 then "111111" else "222222"

/-- A pending, unexpired 2FA session and its store. -/
def sess3 : TwoFASession := ⟨"t3", 1, "alice", 0, 100, false⟩

def store3 : SessionStore := [("t3", sess3)]

/-- An expired 2FA session and its store. -/
def sess5 : TwoFASession := ⟨"t5", 1, "alice", 0, 10, false⟩

def store5 : SessionStore := [("t5", sess5)]

/-- An expired handler-level session and its store. -/
def hsess5 : HSession := ⟨"h5", 1, "alice", "Admin", "Alice", true, true, 0, 0, 10⟩

def hstore5 : HStore := [("h5", hsess5)]

/-- An authenticated, unexpired 2FA session and its store. -/
def sess6 : TwoFASession := ⟨"t6", 1, "alice", 0, 100, true⟩

def store6 : SessionStore := [("t6", sess6)]

/-- An authenticated handler-level session and its store. -/
def hsess6 : HSession := ⟨"h6", 1, "alice", "Admin", "Alice", true, true, 0, 0, 1000⟩

def hstore6 : HStore := [("h6", hsess6)]

/-- A user on whom the handler-level session store is exercised. -/
def cexUser4 : UserRec := ⟨7, "bob", "h", "Nurse", "Bob", "", false, []⟩

/-- A one-user table and a bcrypt comparator for the credential claims:
the stored hash `"HASH"` matches exactly the password `"pw"`. -/
def db7 : UsersDB := [⟨1, "alice", "HASH", "Admin", "Alice", "", false, []⟩]

def bcr7 : String → String → Bool := fun h p => h == "HASH" && p == "pw"

/-- A user who already has a non-empty stored TOTP secret. -/
def db9 : UsersDB := [⟨1, "sam", "h", "Admin", "Sam", "OLDSECRET", true, []⟩]

def qr9 : String → String → String := fun _ _ => "QR"

/-- A user whose 2FA-enabled flag is off. -/
def db10 : UsersDB := [⟨2, "offa", "h", "Admin", "Offa", "", false, []⟩]

/-! ### Helper lemmas -/

/-- Mapping a function that does not change the predicate's verdict commutes
with `find?`. -/
theorem find?_map_inv {α : Type} (l : List α) (f : α → α) (p : α → Bool)
    (hp : ∀ x, p (f x) = p x) : (l.map f).find? p = (l.find? p).map f := by
  have hpf : (p ∘ f) = p := funext hp
  rw [List.find?_map f l, hpf]

/-- Shifting the reference time by whole steps shifts the step index. -/
theorem totpStep_shift (t i : Int) : totpStep (t + i * 30) = totpStep t + i := by
  unfold totpStep
  rw [Int.fdiv_eq_ediv _ (by norm_num), Int.fdiv_eq_ediv _ (by norm_num)]
  exact Int.add_mul_ediv_right t i (by norm_num)

/-- The step index is monotone in the reference time. -/
theorem totpStep_mono {a b : Int} (h : a ≤ b) : totpStep a ≤ totpStep b := by
  unfold totpStep
  rw [Int.fdiv_eq_ediv _ (by norm_num), Int.fdiv_eq_ediv _ (by norm_num)]
  exact Int.ediv_le_ediv (by norm_num) h

/-- The combined TOTP check of `VerifyTwoFA` accepts exactly the codes of the
five steps at offsets -2..+2 from the step of the reference time. -/
theorem totpAccepts_iff (tc : String → Int → String) (code secret : String) (now : Int) :
    totpAccepts tc code secret now = true ↔
      ∃ i : Int, -2 ≤ i ∧ i ≤ 2 ∧ code = tc secret (totpStep now + i) := by
  unfold totpAccepts totpValidateDefault totpSkewLoop generateCode
  simp only [Bool.or_eq_true, List.any_cons, List.any_nil, Bool.or_false, beq_iff_eq,
    totpStep_shift]
  constructor
  · rintro ((h | h | h) | (h | h | h | h | h))
    · exact ⟨-1, by norm_num, by norm_num, h⟩
    · exact ⟨0, by norm_num, by norm_num, by simpa using h⟩
    · exact ⟨1, by norm_num, by norm_num, h⟩
    · exact ⟨-2, by norm_num, by norm_num, h.symm⟩
    · exact ⟨-1, by norm_num, by norm_num, h.symm⟩
    · exact ⟨0, by norm_num, by norm_num, by simpa using h.symm⟩
    · exact ⟨1, by norm_num, by norm_num, h.symm⟩
    · exact ⟨2, by norm_num, by norm_num, h.symm⟩
  · rintro ⟨i, h1, h2, h⟩
    have hi : i = -2 ∨ i = -1 ∨ i = 0 ∨ i = 1 ∨ i = 2 := by omega
    rcases hi with rfl | rfl | rfl | rfl | rfl
    · exact Or.inr (Or.inl h.symm)
    · exact Or.inl (Or.inl h)
    · exact Or.inl (Or.inr (Or.inl (by simpa using h)))
    · exact Or.inl (Or.inr (Or.inr h))
    · exact Or.inr (Or.inr (Or.inr (Or.inr (Or.inr h.symm))))

/-- Looking a key up in an association list whose entries were rewritten by a
key-preserving update. -/
theorem find?_assoc_update {β : Type} (st : List (String × β)) (sid other : String)
    (g : String × β → β) :
    ((st.map fun p => if p.1 == other then (p.1, g p) else p).find? fun p => p.1 == sid) =
      (st.find? fun p => p.1 == sid).map fun p => if p.1 == other then (p.1, g p) else p := by
  apply find?_map_inv
  intro x
  by_cases h : (x.1 == other) = true <;> simp [h]

/-- A found association-list entry carries the looked-up key. -/
theorem find?_assoc_key {β : Type} (st : List (String × β)) (sid : String)
    (p : String × β) (h : (st.find? fun p => p.1 == sid) = some p) : p.1 = sid := by
  have := List.find?_some h
  simpa using this

theorem lookupSession_nil (sid : String) :
    TwoFASessionManager.lookupSession [] sid = none := rfl

theorem lookupSession_cons (k : String) (t : TwoFASession) (st : SessionStore) (sid : String) :
    TwoFASessionManager.lookupSession ((k, t) :: st) sid =
      if k == sid then some t else TwoFASessionManager.lookupSession st sid := by
  by_cases h : (k == sid) = true
  · simp [TwoFASessionManager.lookupSession, List.find?_cons_of_pos _ h, h]
  · have h' : (k == sid) = false := by simpa using h
    simp [TwoFASessionManager.lookupSession, List.find?_cons_of_neg _ h, h']

/-- Effect of a key-targeted session rewrite on lookups. -/
theorem lookupSession_map_update (st : SessionStore) (sid other : String)
    (g : String × TwoFASession → TwoFASession) :
    TwoFASessionManager.lookupSession
        (st.map fun p => if p.1 == other then (p.1, g p) else p) sid =
      (st.find? fun p => p.1 == sid).map
        fun p => if sid == other then g p else p.2 := by
  unfold TwoFASessionManager.lookupSession
  rw [find?_assoc_update]
  cases hf : st.find? (fun p => p.1 == sid) with
  | none => simp
  | some p =>
    have hkey : p.1 = sid := find?_assoc_key st sid p hf
    by_cases ho : sid = other <;> simp [Option.map_map, hkey, ho]

/-- Effect of the same rewrite on the handler-level store. -/
theorem hLookupSession_map_update (st : HStore) (sid other : String)
    (g : String × HSession → HSession) :
    SessionManager.lookupSession
        (st.map fun p => if p.1 == other then (p.1, g p) else p) sid =
      (st.find? fun p => p.1 == sid).map
        fun p => if sid == other then g p else p.2 := by
  unfold SessionManager.lookupSession
  rw [find?_assoc_update]
  cases hf : st.find? (fun p => p.1 == sid) with
  | none => simp
  | some p =>
    have hkey : p.1 = sid := find?_assoc_key st sid p hf
    by_cases ho : sid = other <;> simp [Option.map_map, hkey, ho]

/-- A successful lookup puts the key among the stored keys. -/
theorem mem_keys_of_lookup (st : SessionStore) (sid : String) (s : TwoFASession)
    (h : TwoFASessionManager.lookupSession st sid = some s) : sid ∈ st.map Prod.fst := by
  unfold TwoFASessionManager.lookupSession at h
  cases hf : st.find? (fun p => p.1 == sid) with
  | none => rw [hf] at h; simp at h
  | some p =>
    have hkey : p.1 = sid := find?_assoc_key st sid p hf
    exact hkey ▸ List.mem_map_of_mem Prod.fst (List.mem_of_find?_eq_some hf)

/-- On a store with unique keys, an entry surviving a `filter` is found with
the same session as in the unfiltered store. -/
theorem lookupSession_filter (q : String × TwoFASession → Bool) (st : SessionStore)
    (sid : String) (s' : TwoFASession) (hwf : TwoFASessionManager.keysNodup st)
    (h : TwoFASessionManager.lookupSession (st.filter q) sid = some s') :
    TwoFASessionManager.lookupSession st sid = some s' := by
  induction st with
  | nil => simp [TwoFASessionManager.lookupSession] at h
  | cons hd tl ih =>
    have hwf' : hd.1 ∉ tl.map Prod.fst ∧ TwoFASessionManager.keysNodup tl := by
      simpa [TwoFASessionManager.keysNodup, List.nodup_cons] using hwf
    obtain ⟨hk, hnd⟩ := hwf'
    obtain ⟨k, t⟩ := hd
    cases hq : q (k, t) with
    | true =>
      rw [List.filter_cons_of_pos hq] at h
      rw [lookupSession_cons] at h ⊢
      by_cases hks : (k == sid) = true
      · simpa [hks] using h
      · have hks' : (k == sid) = false := by simpa using hks
        rw [hks'] at h ⊢
        simp only [Bool.false_eq_true, if_false] at h ⊢
        exact ih hnd h
    | false =>
      rw [List.filter_cons_of_neg (by simp [hq])] at h
      have htl := ih hnd h
      rw [lookupSession_cons]
      by_cases hks : k = sid
      · exact absurd (hks ▸ mem_keys_of_lookup tl sid s' htl) hk
      · simp [hks, htl]

/-- The backup-code scan finds and removes exactly the first occurrence. -/
theorem removeFirst_eq (code : String) (l : List String) :
    removeFirst code l = if code ∈ l then some (l.erase code) else none := by
  induction l with
  | nil => simp [removeFirst]
  | cons c rest ih =>
    by_cases hc : code = c
    · subst hc
      simp [removeFirst, List.erase_cons_head]
    · have hc1 : (code == c) = false := by simp [hc]
      have hc2 : (c == code) = false := by simp [Ne.symm hc]
      simp only [removeFirst, hc1, Bool.false_eq_true, if_false, ih, List.erase_cons, hc2,
        List.mem_cons]
      by_cases hm : code ∈ rest <;> simp [hm, hc]

/-- Two hex characters per byte. -/
theorem hexBytes_length (bs : List Nat) : (hexBytes bs).length = 2 * bs.length := by
  induction bs with
  | nil => simp [hexBytes]
  | cons b bs ih => simp [hexBytes, ih]; ring

/-- The encoded token has two characters per random byte. -/
theorem hexEncode_length (bs : List Nat) : (hexEncode bs).length = 2 * bs.length := by
  simp [hexEncode, String.length, hexBytes_length]

/-! ### Claim theorems -/

/-- C2: for any secret and reference time T, a TOTP code generated for T is
accepted by the validation inside `VerifyTwoFA`/`EnableTwoFA` when the
reference time is T, T±30s or T±60s, and — codes of later steps being
distinct from T's — rejected at T+90s and beyond; in general the validator
accepts exactly a match at one of the steps at offsets -2..+2 × 30s from
the step containing the reference time. -/
theorem totp_window_spec (tc : String → Int → String) (secret : String) (T : Int)
    (hfresh : ∀ s : Int, totpStep T < s → tc secret s ≠ tc secret (totpStep T)) :
    (∀ d : Int, d ∈ [(-60 : Int), -30, 0, 30, 60] →
      totpAccepts tc (generateCode tc secret T) secret (T + d) = true) ∧
    (∀ Tr : Int, T + 90 ≤ Tr →
      totpAccepts tc (generateCode tc secret T) secret Tr = false) ∧
    (∀ code : String, ∀ Tr : Int,
      totpAccepts tc code secret Tr = true ↔
        ∃ i : Int, -2 ≤ i ∧ i ≤ 2 ∧ code = tc secret (totpStep Tr + i)) := by
  refine ⟨?_, ?_, fun code Tr => totpAccepts_iff tc code secret Tr⟩
  · intro d hd
    simp only [List.mem_cons, List.not_mem_nil, or_false] at hd
    rcases hd with rfl | rfl | rfl | rfl | rfl
    · rw [totpAccepts_iff]
      refine ⟨2, by norm_num, by norm_num, ?_⟩
      rw [show T + (-60 : Int) = T + (-2) * 30 by ring, totpStep_shift, generateCode]
      norm_num
    · rw [totpAccepts_iff]
      refine ⟨1, by norm_num, by norm_num, ?_⟩
      rw [show T + (-30 : Int) = T + (-1) * 30 by ring, totpStep_shift, generateCode]
      norm_num
    · rw [totpAccepts_iff]
      refine ⟨0, by norm_num, by norm_num, ?_⟩
      rw [show T + (0 : Int) = T + 0 * 30 by ring, totpStep_shift, generateCode]
      norm_num
    · rw [totpAccepts_iff]
      refine ⟨-1, by norm_num, by norm_num, ?_⟩
      rw [show T + (30 : Int) = T + 1 * 30 by ring, totpStep_shift, generateCode]
      norm_num
    · rw [totpAccepts_iff]
      refine ⟨-2, by norm_num, by norm_num, ?_⟩
      rw [show T + (60 : Int) = T + 2 * 30 by ring, totpStep_shift, generateCode]
      norm_num
  · intro Tr hTr
    cases hb : totpAccepts tc (generateCode tc secret T) secret Tr with
    | false => rfl
    | true =>
      exfalso
      obtain ⟨i, h1, h2, h⟩ := (totpAccepts_iff tc _ secret Tr).mp hb
      have h90 : totpStep (T + 90) = totpStep T + 3 := by
        have hs := totpStep_shift T 3
        norm_num at hs
        exact hs
      have hstep3 : totpStep T + 3 ≤ totpStep Tr := h90 ▸ totpStep_mono hTr
      have hgt : totpStep T < totpStep Tr + i := by omega
      simp only [generateCode] at h
      exact hfresh _ hgt h.symm

/-- C2 witness: with the concrete oracle `tcW2`, secret `"k"` and T = 0, the
code of step 0 is accepted 30 seconds later and rejected at 95 seconds. -/
theorem totp_window_spec_witness :
    totpAccepts tcW2 (generateCode tcW2 "k" 0) "k" 30 = true ∧
    totpAccepts tcW2 (generateCode tcW2 "k" 0) "k" 95 = false := by
  have hfresh : ∀ s : Int, totpStep 0 < s → tcW2 "k" s ≠ tcW2 "k" (totpStep 0) := by
    intro s hs heq
    have hs0 : totpStep 0 = 0 := rfl
    rw [hs0] at hs heq
    simp only [tcW2] at heq
    rw [if_neg (by omega)] at heq
    simp at heq
  have h := totp_window_spec tcW2 "k" 0 hfresh
  exact ⟨by simpa using h.1 30 (by decide), h.2.1 95 (by norm_num)⟩

/-- C3: `MarkAuthenticated` returns false and leaves the store unchanged when
the token is absent or the session's expiry has passed — in particular
whenever `GetSession` reports not-found — and otherwise returns true,
setting `authenticated = true` and `expiresAt = now + 24h` on the stored
session. -/
theorem markAuthenticated_spec (now : Int) (st : SessionStore) (sid : String) :
    (TwoFASessionManager.lookupSession st sid = none →
      TwoFASessionManager.markAuthenticated now st sid = (false, st)) ∧
    (∀ s, TwoFASessionManager.lookupSession st sid = some s → s.expiresAt < now →
      TwoFASessionManager.markAuthenticated now st sid = (false, st)) ∧
    (∀ s, TwoFASessionManager.lookupSession st sid = some s → ¬ s.expiresAt < now →
      (TwoFASessionManager.markAuthenticated now st sid).1 = true ∧
      ∃ s', TwoFASessionManager.lookupSession
          (TwoFASessionManager.markAuthenticated now st sid).2 sid = some s' ∧
        s'.authenticated = true ∧ s'.expiresAt = now + 24 * 60 * 60) ∧
    ((TwoFASessionManager.getSession now st sid).1 = none →
      (TwoFASessionManager.markAuthenticated now st sid).1 = false) := by
  refine ⟨?_, ?_, ?_, ?_⟩
  · intro h
    unfold TwoFASessionManager.markAuthenticated
    rw [h]
  · intro s hs hexp
    unfold TwoFASessionManager.markAuthenticated
    rw [hs]
    simp [hexp]
  · intro s hs hexp
    have hmk : TwoFASessionManager.markAuthenticated now st sid =
        (true, st.map fun p => if p.1 == sid then
          (p.1, { p.2 with authenticated := true, expiresAt := now + 24 * 60 * 60 })
        else p) := by
      unfold TwoFASessionManager.markAuthenticated
      rw [hs]
      dsimp only
      rw [if_neg hexp]
    rw [hmk]
    refine ⟨rfl, ?_⟩
    unfold TwoFASessionManager.lookupSession at hs
    cases hf : st.find? (fun p => p.1 == sid) with
    | none => rw [hf] at hs; simp at hs
    | some p0 =>
      rw [lookupSession_map_update st sid sid
        (fun p => { p.2 with authenticated := true, expiresAt := now + 24 * 60 * 60 })]
      rw [hf]
      refine ⟨{ p0.2 with authenticated := true, expiresAt := now + 24 * 60 * 60 },
        ?_, rfl, rfl⟩
      simp
  · intro h
    cases hl : TwoFASessionManager.lookupSession st sid with
    | none =>
      unfold TwoFASessionManager.markAuthenticated
      rw [hl]
    | some s =>
      by_cases hexp : s.expiresAt < now
      · unfold TwoFASessionManager.markAuthenticated
        rw [hl]
        simp [hexp]
      · exfalso
        have hg : (TwoFASessionManager.getSession now st sid).1 = some s := by
          unfold TwoFASessionManager.getSession
          rw [hl]
          dsimp only
          rw [if_neg hexp]
        rw [h] at hg
        exact Option.noConfusion hg

/-- C3 witness: on the one-session store `store3`, promotion at time 50
succeeds and sets the 24-hour expiry, while promotion at time 200 (past the
expiry 100) fails and leaves the store untouched. -/
theorem markAuthenticated_spec_witness :
    (TwoFASessionManager.markAuthenticated 50 store3 "t3").1 = true ∧
    (∃ s', TwoFASessionManager.lookupSession
        (TwoFASessionManager.markAuthenticated 50 store3 "t3").2 "t3" = some s' ∧
      s'.authenticated = true ∧ s'.expiresAt = 50 + 24 * 60 * 60) ∧
    TwoFASessionManager.markAuthenticated 200 store3 "t3" = (false, store3) := by
  have h := markAuthenticated_spec 50 store3 "t3"
  have h2 := markAuthenticated_spec 200 store3 "t3"
  refine ⟨?_, ?_, ?_⟩
  · exact ((h.2.2.1) sess3 (by decide) (by decide)).1
  · exact ((h.2.2.1) sess3 (by decide) (by decide)).2
  · exact (h2.2.1) sess3 (by decide) (by decide)

/-- C4 (amended): the 2FA pending-session store's `CreateSession` builds the
token by hex-encoding the 32 random bytes drawn (64 hex characters, a
256-bit value), sets `authenticated = false` and
`expiresAt = now + 15 minutes`, and inserts the session under that token;
the handler-level `SessionManager.CreateSession` instead sets a 24-hour
expiry and takes the verified flag from its caller. -/
theorem createSession_spec (now : Int) (rb : List Nat) (st : SessionStore)
    (uid : Nat) (un : String) (hlen : rb.length = 32) :
    ((TwoFASessionManager.createSession now rb st uid un).1.sessionId = hexEncode rb) ∧
    ((TwoFASessionManager.createSession now rb st uid un).1.sessionId.length = 64) ∧
    ((TwoFASessionManager.createSession now rb st uid un).1.authenticated = false) ∧
    ((TwoFASessionManager.createSession now rb st uid un).1.expiresAt = now + 15 * 60) ∧
    ((TwoFASessionManager.createSession now rb st uid un).1.createdAt = now) ∧
    (TwoFASessionManager.lookupSession (TwoFASessionManager.createSession now rb st uid un).2
      (hexEncode rb) = some (TwoFASessionManager.createSession now rb st uid un).1) ∧
    (∀ (hst : HStore) (user : UserRec) (v : Bool),
      (SessionManager.createSession now rb hst user v).1.expiresAt = now + 24 * 60 * 60 ∧
      (SessionManager.createSession now rb hst user v).1.twoFAVerified = v) := by
  refine ⟨rfl, ?_, rfl, rfl, rfl, ?_, fun hst user v => ⟨rfl, rfl⟩⟩
  · show (hexEncode rb).length = 64
    rw [hexEncode_length, hlen]
  · show TwoFASessionManager.lookupSession ((hexEncode rb, _) :: st) (hexEncode rb) = _
    rw [lookupSession_cons]
    rw [if_pos (by simp)]
    rfl

/-- C4 counterexample: the handler-level `SessionManager.CreateSession`
(also cited by the claim) does not create a pending 15-minute session: it
sets a 24-hour expiry and lets the caller choose the verified flag. -/
theorem createSession_cex :
    (SessionManager.createSession 0 (List.replicate 32 0) [] cexUser4 true).1.expiresAt
      ≠ 0 + 15 * 60 ∧
    (SessionManager.createSession 0 (List.replicate 32 0) [] cexUser4 true).1.twoFAVerified
      ≠ false := by
  constructor <;> decide

/-- C4 witness: a fresh creation on the empty 2FA store at time 0 yields a
64-character token, a pending flag, and a 15-minute expiry. -/
theorem createSession_spec_witness :
    (TwoFASessionManager.createSession 0 (List.replicate 32 0) [] 1 "u").1.sessionId.length
      = 64 ∧
    (TwoFASessionManager.createSession 0 (List.replicate 32 0) [] 1 "u").1.authenticated
      = false ∧
    (TwoFASessionManager.createSession 0 (List.replicate 32 0) [] 1 "u").1.expiresAt
      = 0 + 15 * 60 := by
  have h := createSession_spec 0 (List.replicate 32 0) [] 1 "u" (by decide)
  exact ⟨h.2.1, h.2.2.1, h.2.2.2.1⟩

/-- C5 (amended): the 2FA session store's `GetSession` treats a present but
expired session as not-found and returns the store completely unchanged —
no `GetSession` call mutates this store — while the handler-level
`SessionManager.GetSession` deletes the expired entry during the read. -/
theorem getSession_expired_frame (now : Int) (st : SessionStore) (sid : String)
    (s : TwoFASession) (hlook : TwoFASessionManager.lookupSession st sid = some s)
    (hexp : s.expiresAt < now) :
    TwoFASessionManager.getSession now st sid = (none, st) ∧
    (∀ now' sid', (TwoFASessionManager.getSession now' st sid').2 = st) ∧
    (∀ (hst : HStore) (hsid : String) (hs : HSession),
      SessionManager.lookupSession hst hsid = some hs → hs.expiresAt < now →
      SessionManager.getSession now hst hsid =
        (none, hst.filter fun p => !(p.1 == hsid))) := by
  refine ⟨?_, ?_, ?_⟩
  · unfold TwoFASessionManager.getSession
    rw [hlook]
    dsimp only
    rw [if_pos hexp]
  · intro now' sid'
    unfold TwoFASessionManager.getSession
    cases hl : TwoFASessionManager.lookupSession st sid' with
    | none => rfl
    | some t =>
      dsimp only
      by_cases he : t.expiresAt < now' <;> simp [he]
  · intro hst hsid hs hl he
    unfold SessionManager.getSession
    rw [hl]
    dsimp only
    rw [if_pos he]

/-- C5 counterexample: reading the expired token of the handler-level store
`hstore5` (a store cited by the claim) deletes the entry: the read does not
leave the store unchanged. -/
theorem getSession_expired_cex :
    (SessionManager.getSession 100 hstore5 "h5").1 = none ∧
    (SessionManager.getSession 100 hstore5 "h5").2 = [] ∧ hstore5 ≠ [] :=
  ⟨rfl, rfl, by decide⟩

/-- C5 witness: on the one-session store `store5`, whose session expired at
time 10, a read at time 100 reports not-found and returns the store intact. -/
theorem getSession_expired_frame_witness :
    TwoFASessionManager.getSession 100 store5 "t5" = (none, store5) :=
  (getSession_expired_frame 100 store5 "t5" sess5 (by decide) (by decide)).1

/-- C6 (amended): no operation of the 2FA session store — create (with a
token not colliding with a live one, which the 256-bit CSPRNG draw
guarantees), read, promote, delete, sweep, clear-all — ever takes a live
session whose `authenticated` flag is true to one where it is false; the
handler-level `SessionManager.UpdateSession2FA`, by contrast, writes
whatever flag its caller passes and can downgrade a session. -/
theorem no_auth_downgrade (op : TwoFASessionManager.StoreOp) (st : SessionStore)
    (sid : String) (s s' : TwoFASession)
    (hwf : TwoFASessionManager.keysNodup st) (hfr : TwoFASessionManager.opFresh op st)
    (hbefore : TwoFASessionManager.lookupSession st sid = some s)
    (hauth : s.authenticated = true)
    (hafter : TwoFASessionManager.lookupSession
      (TwoFASessionManager.applyOp op st) sid = some s') :
    s'.authenticated = true := by
  cases op with
  | create now rb uid un =>
    have hfr' : TwoFASessionManager.lookupSession st (hexEncode rb) = none := hfr
    have hne : (hexEncode rb == sid) = false := by
      simp only [beq_eq_false_iff_ne, ne_eq]
      intro he
      rw [he, hbefore] at hfr'
      exact Option.noConfusion hfr'
    have hafter' : TwoFASessionManager.lookupSession
        ((hexEncode rb, ⟨hexEncode rb, uid, un, now, now + 15 * 60, false⟩) :: st) sid
        = some s' := hafter
    rw [lookupSession_cons, hne] at hafter'
    simp only [Bool.false_eq_true, if_false] at hafter'
    rw [hbefore] at hafter'
    exact (Option.some.inj hafter') ▸ hauth
  | get now gsid =>
    have hst : TwoFASessionManager.applyOp (.get now gsid) st = st := by
      show (TwoFASessionManager.getSession now st gsid).2 = st
      unfold TwoFASessionManager.getSession
      cases TwoFASessionManager.lookupSession st gsid with
      | none => rfl
      | some t =>
        dsimp only
        by_cases he : t.expiresAt < now <;> simp [he]
    rw [hst, hbefore] at hafter
    exact (Option.some.inj hafter) ▸ hauth
  | mark now msid =>
    have hafter' : TwoFASessionManager.lookupSession
        (TwoFASessionManager.markAuthenticated now st msid).2 sid = some s' := hafter
    unfold TwoFASessionManager.markAuthenticated at hafter'
    cases hl : TwoFASessionManager.lookupSession st msid with
    | none =>
      rw [hl] at hafter'
      dsimp only at hafter'
      rw [hbefore] at hafter'
      exact (Option.some.inj hafter') ▸ hauth
    | some t =>
      rw [hl] at hafter'
      dsimp only at hafter'
      by_cases he : t.expiresAt < now
      · rw [if_pos he] at hafter'
        dsimp only at hafter'
        rw [hbefore] at hafter'
        exact (Option.some.inj hafter') ▸ hauth
      · rw [if_neg he] at hafter'
        dsimp only at hafter'
        rw [lookupSession_map_update st sid msid
          (fun p => { p.2 with authenticated := true, expiresAt := now + 24 * 60 * 60 })]
          at hafter'
        unfold TwoFASessionManager.lookupSession at hbefore
        cases hf : st.find? (fun p => p.1 == sid) with
        | none => rw [hf] at hbefore; simp at hbefore
        | some p0 =>
          rw [hf] at hbefore hafter'
          have hp0 : p0.2 = s := Option.some.inj hbefore
          by_cases hso : (sid == msid) = true
          · simp only [Option.map_some, hso, if_true] at hafter'
            exact (Option.some.inj hafter') ▸ rfl
          · have hso' : (sid == msid) = false := by simpa using hso
            simp only [Option.map_some, hso', Bool.false_eq_true, if_false] at hafter'
            have hs' : p0.2 = s' := Option.some.inj hafter'
            rw [← hs', hp0]
            exact hauth
  | del dsid =>
    have hb := lookupSession_filter (fun p => !(p.1 == dsid)) st sid s' hwf hafter
    rw [hbefore] at hb
    exact (Option.some.inj hb) ▸ hauth
  | sweep now =>
    have hb := lookupSession_filter (fun p => !(p.2.expiresAt < now)) st sid s' hwf hafter
    rw [hbefore] at hb
    exact (Option.some.inj hb) ▸ hauth
  | clearAll =>
    exact Option.noConfusion hafter

/-- C6 counterexample: `SessionManager.UpdateSession2FA` called with
`verified = false` on the authenticated session of `hstore6` flips its flag
back to false — an exposed session-store mutator does downgrade a session. -/
theorem updateSession2FA_downgrade_cex :
    hsess6.twoFAVerified = true ∧
    (SessionManager.lookupSession (SessionManager.updateSession2FA hstore6 "h6" false).2
      "h6").map (fun s => s.twoFAVerified) = some false :=
  ⟨rfl, rfl⟩

/-- C6 witness: promoting the already-authenticated session of `store6`
leaves it authenticated. -/
theorem no_auth_downgrade_witness :
    (⟨"t6", 1, "alice", 0, 50 + 24 * 60 * 60, true⟩ : TwoFASession).authenticated = true :=
  no_auth_downgrade (.mark 50 "t6") store6 "t6" sess6
    ⟨"t6", 1, "alice", 0, 50 + 24 * 60 * 60, true⟩
    (by show (store6.map Prod.fst).Nodup; decide) trivial (by decide) rfl (by decide)

/-- C1 (amended): for a 2FA-enabled subject whose stored list contains the
submitted backup code exactly once (as the 10 generated codes are expected
to be pairwise distinct), a `VerifyTwoFA` call whose code matches no valid
TOTP code returns true and persists exactly the prior list with that single
code removed, and a second sequential submission of the same code (again
matching no TOTP code) returns false and writes nothing. When the stored
list contains the code twice, only the first occurrence is removed and a
second submission succeeds again. -/
theorem verifyTwoFA_backup_consume (tc : String → Int → String) (now now' : Int)
    (db : UsersDB) (uid : Nat) (code : String) (u : UserRec)
    (hfind : findEnabledById db uid = some u)
    (hcount : u.backupCodes.count code = 1)
    (htotp : totpAccepts tc code u.twoFASecret now = false)
    (htotp' : totpAccepts tc code u.twoFASecret now' = false) :
    verifyTwoFA tc now db uid code =
      (Except.ok true, setBackupCodes db uid (u.backupCodes.erase code)) ∧
    verifyTwoFA tc now' (setBackupCodes db uid (u.backupCodes.erase code)) uid code =
      (Except.ok false, setBackupCodes db uid (u.backupCodes.erase code)) := by
  have hmem : code ∈ u.backupCodes := by
    by_contra hc
    rw [← List.count_eq_zero] at hc
    omega
  obtain ⟨hv, hl⟩ := Bool.or_eq_false_iff.mp htotp
  obtain ⟨hv', hl'⟩ := Bool.or_eq_false_iff.mp htotp'
  have hrm : removeFirst code u.backupCodes = some (u.backupCodes.erase code) := by
    rw [removeFirst_eq, if_pos hmem]
  have hfindraw0 : db.find? (fun x => x.userId == uid && x.twoFAEnabled) = some u := hfind
  have hpu := List.find?_some hfindraw0
  simp only [Bool.and_eq_true] at hpu
  obtain ⟨hid, _⟩ := hpu
  constructor
  · unfold verifyTwoFA
    rw [hfind]
    dsimp only
    rw [if_neg (by simp [hv]), if_neg (by simp [hl]), hrm]
  · have hfindraw : db.find? (fun x => x.userId == uid && x.twoFAEnabled) = some u := hfind
    have hfind' : findEnabledById (setBackupCodes db uid (u.backupCodes.erase code)) uid
        = some { u with backupCodes := u.backupCodes.erase code } := by
      unfold findEnabledById setBackupCodes
      rw [find?_map_inv db _ _ ?hp]
      case hp =>
        intro x
        by_cases hx : (x.userId == uid) = true <;> simp [hx]
      rw [hfindraw]
      dsimp only [Option.map]
      rw [if_pos hid]
    have hnot : code ∉ u.backupCodes.erase code := by
      have hce := List.count_erase_self code u.backupCodes
      rw [hcount] at hce
      rw [← List.count_eq_zero]
      omega
    have hrm' : removeFirst code (u.backupCodes.erase code) = none := by
      rw [removeFirst_eq, if_neg hnot]
    unfold verifyTwoFA
    rw [hfind']
    dsimp only
    rw [if_neg (by simp [hv']), if_neg (by simp [hl']), hrm']

/-- C1 counterexample: on the stored list `["AA", "AA"]` (the code present
twice), the first submission of `"AA"` succeeds and removes one copy, and a
second sequential submission of the same code succeeds again — it does not
return false as the claim states. -/
theorem verifyTwoFA_backup_reuse_cex :
    (verifyTwoFA noTotp 0 cexDupDB 1 "AA").1 = Except.ok true ∧
    (verifyTwoFA noTotp 0 (verifyTwoFA noTotp 0 cexDupDB 1 "AA").2 1 "AA").1
      = Except.ok true :=
  ⟨rfl, rfl⟩

/-- C1 witness: on the stored list `["AA", "BB"]`, submitting `"AA"` at time
0 consumes it, and resubmitting it at time 5 fails. -/
theorem verifyTwoFA_backup_consume_witness :
    verifyTwoFA noTotp 0 witDB1 1 "AA" =
      (Except.ok true, setBackupCodes witDB1 1 (witUser1.backupCodes.erase "AA")) ∧
    verifyTwoFA noTotp 5 (setBackupCodes witDB1 1 (witUser1.backupCodes.erase "AA")) 1 "AA" =
      (Except.ok false, setBackupCodes witDB1 1 (witUser1.backupCodes.erase "AA")) :=
  verifyTwoFA_backup_consume noTotp 0 5 witDB1 1 "AA" witUser1 rfl (by decide)
    (by decide) (by decide)

/-- C7 (amended): `authenticateUser` itself propagates two distinct error
values — the store's not-found error for an unknown username and the bcrypt
mismatch error for a wrong password — but the `Login` handler collapses
every authentication failure into the identical response with message
"Invalid username or password" and an unchanged session store, so the two
causes are indistinguishable at the HTTP interface (only there). -/
theorem login_failure_uniform (bcryptOk : String → String → Bool) (now : Int)
    (rb : List Nat) (db : UsersDB) (st : HStore) (u1 p1 u2 p2 : String)
    (h1 : ∃ e, authenticateUser bcryptOk db u1 p1 = Except.error e)
    (h2 : ∃ e, authenticateUser bcryptOk db u2 p2 = Except.error e) :
    (login bcryptOk now rb db st u1 p1).1 = (login bcryptOk now rb db st u2 p2).1 ∧
    (login bcryptOk now rb db st u1 p1).1.message = "Invalid username or password" ∧
    (login bcryptOk now rb db st u1 p1).2 = st := by
  obtain ⟨e1, he1⟩ := h1
  obtain ⟨e2, he2⟩ := h2
  unfold login
  rw [he1, he2]
  exact ⟨rfl, rfl, rfl⟩

/-- C7 counterexample: on the table `db7`, the unknown username `bob` fails
with the not-found error while `alice` with a wrong password fails with the
bcrypt mismatch error — the error results returned by `authenticateUser`
(the symbol the claim cites) differ between the two causes. -/
theorem authenticateUser_distinct_errors_cex :
    authenticateUser bcr7 db7 "bob" "pw" = Except.error AuthErr.noRows ∧
    authenticateUser bcr7 db7 "alice" "bad" = Except.error AuthErr.bcryptMismatch ∧
    AuthErr.noRows ≠ AuthErr.bcryptMismatch :=
  ⟨rfl, rfl, by decide⟩

/-- C7 witness: the two concrete failures above produce identical login
responses. -/
theorem login_failure_uniform_witness :
    (login bcr7 0 [] db7 [] "bob" "pw").1 = (login bcr7 0 [] db7 [] "alice" "bad").1 ∧
    (login bcr7 0 [] db7 [] "bob" "pw").1.message = "Invalid username or password" ∧
    (login bcr7 0 [] db7 [] "bob" "pw").2 = [] :=
  login_failure_uniform bcr7 0 [] db7 [] "bob" "pw" "alice" "bad"
    ⟨AuthErr.noRows, rfl⟩ ⟨AuthErr.bcryptMismatch, rfl⟩

/-- The sequential `VerifyTwoFA` is exactly its read phase followed by the
compute phase followed by the write phase. -/
theorem verifyTwoFA_eq_phases (tc : String → Int → String) (now : Int) (db : UsersDB)
    (uid : Nat) (code : String) :
    verifyTwoFA tc now db uid code =
      match verifyTwoFARead db uid with
      | none => (Except.error "2FA not enabled for user", db)
      | some sc =>
        (Except.ok (verifyTwoFACompute tc now code sc.1 sc.2).1,
          applyWrite db uid (verifyTwoFACompute tc now code sc.1 sc.2).2) := by
  unfold verifyTwoFA verifyTwoFARead verifyTwoFACompute
  cases findEnabledById db uid with
  | none => rfl
  | some u =>
    dsimp only [Option.map]
    by_cases hv : totpValidateDefault tc code u.twoFASecret now = true
    · simp [hv, applyWrite]
    · have hv' : totpValidateDefault tc code u.twoFASecret now = false := by simpa using hv
      by_cases hl : totpSkewLoop tc code u.twoFASecret now = true
      · simp [hv', hl, applyWrite]
      · have hl' : totpSkewLoop tc code u.twoFASecret now = false := by simpa using hl
        cases hrm : removeFirst code u.backupCodes with
        | none => simp [hv', hl', hrm, applyWrite]
        | some rest => simp [hv', hl', hrm, applyWrite]

/-- C8: evaluating the double-spend interleaving — nothing in `VerifyTwoFA`
serializes the read-modify-write of the backup-code list, so two concurrent
calls can both read the row before either `UPDATE` lands — two submissions
of the same unused backup code `"AA"` BOTH return true, instead of the
exactly-one success the claim requires, and the final table has lost only
one copy of the consumed code. -/
theorem verifyTwoFA_race_double_accept :
    (verifyTwoFAInterleaved noTotp 0 0 witDB1 1 "AA" "AA").1 = true ∧
    (verifyTwoFAInterleaved noTotp 0 0 witDB1 1 "AA" "AA").2.1 = true ∧
    (verifyTwoFAInterleaved noTotp 0 0 witDB1 1 "AA" "AA").2.2 =
      setBackupCodes witDB1 1 ["BB"] :=
  ⟨rfl, rfl, rfl⟩

/-- C9: `GenerateTwoFASetup` for a subject who already has a non-empty
stored secret returns exactly that secret and leaves the table unchanged,
so re-running setup yields the same secret both times; a fresh secret is
generated and stored only when the subject has none. -/
theorem generateTwoFASetup_idempotent (qr : String → String → String)
    (newSecret newSecret2 : String) (db : UsersDB) (username : String) (u : UserRec)
    (hfind : findByUsername db username = some u) (hsec : u.twoFASecret ≠ "") :
    (generateTwoFASetup qr newSecret db username).2 = db ∧
    (∃ setup, (generateTwoFASetup qr newSecret db username).1 = Except.ok setup ∧
      setup.secretKey = u.twoFASecret) ∧
    (∃ setup2, (generateTwoFASetup qr newSecret2
        (generateTwoFASetup qr newSecret db username).2 username).1 = Except.ok setup2 ∧
      setup2.secretKey = u.twoFASecret) := by
  have hgen : ∀ ns : String, generateTwoFASetup qr ns db username =
      (Except.ok ⟨u.twoFASecret, "data:image/png;base64," ++ qr u.twoFASecret username, []⟩,
        db) := by
    intro ns
    unfold generateTwoFASetup
    rw [hfind]
    dsimp only
    rw [if_neg (by simp [hsec])]
  refine ⟨by rw [hgen], ?_, ?_⟩
  · exact ⟨⟨u.twoFASecret, "data:image/png;base64," ++ qr u.twoFASecret username, []⟩,
      by rw [hgen], rfl⟩
  · have h2 : (generateTwoFASetup qr newSecret db username).2 = db := by rw [hgen]
    rw [h2]
    exact ⟨⟨u.twoFASecret, "data:image/png;base64," ++ qr u.twoFASecret username, []⟩,
      by rw [hgen], rfl⟩

/-- C9 witness: running setup twice on `db9` (stored secret `"OLDSECRET"`)
returns the stored secret and does not touch the table. -/
theorem generateTwoFASetup_idempotent_witness :
    (generateTwoFASetup qr9 "NEW1" db9 "sam").2 = db9 ∧
    (∃ setup, (generateTwoFASetup qr9 "NEW1" db9 "sam").1 = Except.ok setup ∧
      setup.secretKey = "OLDSECRET") := by
  have h := generateTwoFASetup_idempotent qr9 "NEW1" "NEW2" db9 "sam"
    ⟨1, "sam", "h", "Admin", "Sam", "OLDSECRET", true, []⟩ rfl (by decide)
  exact ⟨h.1, h.2.1⟩

/-- C10: `VerifyTwoFA` for a subject who is absent from the table or whose
2FA-enabled flag is off returns the distinguishable error
"2FA not enabled for user" — not a plain false — and leaves the stored
secret and backup-code list untouched. -/
theorem verifyTwoFA_not_enabled (tc : String → Int → String) (now : Int)
    (db : UsersDB) (uid : Nat) (code : String)
    (h : ∀ u ∈ db, u.userId = uid → u.twoFAEnabled = false) :
    verifyTwoFA tc now db uid code = (Except.error "2FA not enabled for user", db) := by
  have hfind : findEnabledById db uid = none := by
    unfold findEnabledById
    rw [List.find?_eq_none]
    intro x hx
    simp only [Bool.and_eq_true, beq_iff_eq, not_and]
    intro hxid
    simp [h x hx hxid]
  unfold verifyTwoFA
  rw [hfind]

/-- C10 witness: on `db10`, whose only user has the flag off, verification
returns the error and the unchanged table. -/
theorem verifyTwoFA_not_enabled_witness :
    verifyTwoFA noTotp 0 db10 2 "123456" = (Except.error "2FA not enabled for user", db10) :=
  verifyTwoFA_not_enabled noTotp 0 db10 2 "123456" (by decide)

end HospitalAuth
